import Mathlib

/-!
Shallow embedding of the retry engine of `retry.go` (package `httpkit`).

Modelling conventions:
* `time.Duration` (an int64 count of nanoseconds) and the `float64`
  backoff multiplier are modelled over `ℚ`, so the floating-point
  arithmetic of `CalculateRetryDelay` is exact.
* The underlying requester `c.Do(req)` is modelled as an oracle
  `req : Nat → Outcome` giving the outcome of the n-th invocation
  (0-based invocation count).
* The context is modelled as an oracle `cancel : Nat → Bool`:
  `cancel k = true` means that in the `select` race executed during the
  backoff wait before loop iteration `k`, the `ctx.Done()` case wins.
* The Go loop `for attempt := 0; attempt < maxAttempts; attempt++` is
  embedded with a fuel argument equal to `maxAttempts - attempt`
  (clamped to 0), so fuel `0` is exactly the loop condition failing.
-/

namespace HttpKit

/-- Outcome of one invocation of the requester (`resp, err := c.Do(req)` in
`DoRequestWithRetry`): either a non-nil `err` (transport error, no response),
or a response carrying its HTTP status code. -/
inductive Outcome where
  | transportError : Outcome
  | response (statusCode : Int) : Outcome
deriving DecidableEq

/-- `RetryOptions` from `retry.go`.  Durations are in nanoseconds, as `ℚ`;
`BackoffMultiplier` (a Go `float64`) is also `ℚ`. -/
structure RetryOptions where
  MaxRetries : Int
  RetryDelay : ℚ
  MaxRetryDelay : ℚ
  BackoffMultiplier : ℚ
  RetryableStatusCodes : List Int
deriving DecidableEq

/-- `DefaultRetryOptions` from `retry.go`:
MaxRetries 3, RetryDelay `100 * time.Millisecond`, MaxRetryDelay
`2 * time.Second`, BackoffMultiplier 2.0, and the six retryable status
codes 408, 429, 500, 502, 503, 504 in source order. -/
def DefaultRetryOptions : RetryOptions where
  MaxRetries := 3
  RetryDelay := 100 * 1000000
  MaxRetryDelay := 2 * 1000000000
  BackoffMultiplier := 2
  RetryableStatusCodes := [408, 429, 500, 502, 503, 504]

/-- `(*RetryOptions).IsRetryableError(err, statusCode)` from `retry.go`.
The Go `err error` argument is modelled by whether it is non-nil. -/
def RetryOptions.IsRetryableError (r : RetryOptions) (errNonNil : Bool)
    (statusCode : Int) : Bool :=
  if r.MaxRetries = 0 then false
  else if errNonNil then true
  else r.RetryableStatusCodes.contains statusCode

/-- `(*RetryOptions).CalculateRetryDelay(attempt)` from `retry.go`:
`delay := time.Duration(float64(r.RetryDelay) * float64(attempt+1) * r.BackoffMultiplier)`
then capped at `r.MaxRetryDelay`.  The float64 arithmetic is exact over `ℚ`. -/
def RetryOptions.CalculateRetryDelay (r : RetryOptions) (attempt : Int) : ℚ :=
  let delay := r.RetryDelay * ((attempt : ℚ) + 1) * r.BackoffMultiplier
  if delay > r.MaxRetryDelay then r.MaxRetryDelay else delay

/-- The value held in the Go `lastErr` variable, when non-nil: either a
transport error from `c.Do`, or the synthetic
`fmt.Errorf("server error: status %d", resp.StatusCode)`. -/
inductive LastErr where
  | transport : LastErr
  | serverStatus (code : Int) : LastErr
deriving DecidableEq

/-- The distinct results `DoRequestWithRetry` can return.  `ok s` is
`return resp, nil` for a response with status `s`; each error constructor
corresponds to one `return nil, ...` site in the source. -/
inductive RunResult where
  /-- `return resp, nil` -/
  | ok (statusCode : Int) : RunResult
  /-- `return nil, fmt.Errorf("failed to execute request: %w", err)` -/
  | failedToExecute : RunResult
  /-- `return nil, fmt.Errorf("failed to execute request after retries: %w", lastErr)` -/
  | failedAfterRetries : RunResult
  /-- `return nil, ctx.Err()` (cancellation surfaced as-is, unwrapped) -/
  | ctxErr : RunResult
  /-- post-loop `return nil, fmt.Errorf("failed after retries: %w", lastErr)` -/
  | failedAfterRetriesPost : RunResult
  /-- post-loop `return nil, fmt.Errorf("no attempts made")` -/
  | noAttempts : RunResult
deriving DecidableEq

/-- Whether the run returned a non-nil error (every result except `ok`). -/
def RunResult.isError : RunResult → Bool
  | .ok _ => false
  | _ => true

/-- Observable outcome of one call of `DoRequestWithRetry`: the returned
result, the number of requester invocations performed, and the backoff
waits initiated, each recorded as (loop iteration index, delay). -/
structure RunOutput where
  result : RunResult
  calls : Nat
  waits : List (Nat × ℚ)
deriving DecidableEq

/-- The body of the `for attempt := 0; attempt < maxAttempts; attempt++`
loop of `DoRequestWithRetry`, with fuel = `maxAttempts - attempt`.
Arguments after the oracles: fuel, `attempt`, invocation count so far,
waits so far, `lastErr`. -/
def retryLoop (opts : RetryOptions) (req : Nat → Outcome) (cancel : Nat → Bool) :
    Nat → Nat → Nat → List (Nat × ℚ) → Option LastErr → RunOutput
  | 0, _, calls, waits, lastErr =>
    match lastErr with
    | some _ => { result := .failedAfterRetriesPost, calls := calls, waits := waits }
    | none => { result := .noAttempts, calls := calls, waits := waits }
  | fuel + 1, attempt, calls, waits, _lastErr =>
    let waits' := if 0 < attempt then
        waits ++ [(attempt, opts.CalculateRetryDelay ((attempt : Int) - 1))]
      else waits
    if 0 < attempt ∧ cancel attempt then
      { result := .ctxErr, calls := calls, waits := waits' }
    else
      match req calls with
      | .transportError =>
        if ¬ opts.IsRetryableError true 0 then
          { result := .failedToExecute, calls := calls + 1, waits := waits' }
        else if opts.MaxRetries ≤ (attempt : Int) then
          { result := .failedAfterRetries, calls := calls + 1, waits := waits' }
        else
          retryLoop opts req cancel fuel (attempt + 1) (calls + 1) waits' (some .transport)
      | .response statusCode =>
        if opts.IsRetryableError false statusCode ∧ (attempt : Int) < opts.MaxRetries then
          retryLoop opts req cancel fuel (attempt + 1) (calls + 1) waits'
            (some (.serverStatus statusCode))
        else
          { result := .ok statusCode, calls := calls + 1, waits := waits' }

/-- `(*Client).DoRequestWithRetry(ctx, req, retryOpts)` from `retry.go`:
nil options are replaced by `DefaultRetryOptions()`, then the attempt loop
runs with `maxAttempts = retryOpts.MaxRetries + 1`. -/
def DoRequestWithRetry (retryOpts : Option RetryOptions) (req : Nat → Outcome)
    (cancel : Nat → Bool) : RunOutput :=
  let opts := retryOpts.getD DefaultRetryOptions
  retryLoop opts req cancel (opts.MaxRetries + 1).toNat 0 0 [] none

/-! Concrete scenario data used by the testable-property claims. -/

/-- A requester answering every invocation with status 503. -/
def reqAlways503 : Nat → Outcome := fun _ => .response 503

/-- A requester answering every invocation with status 400. -/
def reqAlways400 : Nat → Outcome := fun _ => .response 400

/-- A requester answering 503 on its first two invocations, 200 afterwards. -/
def req503Twice200 : Nat → Outcome := fun n =>
  if n < 2 then .response 503 else .response 200

/-- A requester failing with a transport error on every invocation. -/
def reqAlwaysErr : Nat → Outcome := fun _ => .transportError

/-- A context that is never cancelled. -/
def noCancel : Nat → Bool := fun _ => false

/-- A context whose cancellation wins the wait race at loop iteration 2. -/
def cancelAtTwo : Nat → Bool := fun k => k = 2

/-- Policy: maxRetries 2, base delay 1, max delay 100, multiplier 2,
retryable = {503}. -/
def opts503 : RetryOptions :=
  { MaxRetries := 2, RetryDelay := 1, MaxRetryDelay := 100,
    BackoffMultiplier := 2, RetryableStatusCodes := [503] }

/-- Policy: maxRetries 3, base delay 1, max delay 100, multiplier 2,
retryable = {503}. -/
def opts3Retry503 : RetryOptions :=
  { MaxRetries := 3, RetryDelay := 1, MaxRetryDelay := 100,
    BackoffMultiplier := 2, RetryableStatusCodes := [503] }

/-- Policy: maxRetries 3 with the default retryable set (400 not in it). -/
def opts400 : RetryOptions :=
  { MaxRetries := 3, RetryDelay := 1, MaxRetryDelay := 100,
    BackoffMultiplier := 2, RetryableStatusCodes := [408, 429, 500, 502, 503, 504] }

/-- Policy with a negative retry budget. -/
def optsNeg : RetryOptions :=
  { MaxRetries := -1, RetryDelay := 1, MaxRetryDelay := 100,
    BackoffMultiplier := 2, RetryableStatusCodes := [503] }

/-- Policy with maxRetries 2 and empty retryable set, for transport-error runs. -/
def optsErr2 : RetryOptions :=
  { MaxRetries := 2, RetryDelay := 1, MaxRetryDelay := 100,
    BackoffMultiplier := 2, RetryableStatusCodes := [] }

/-! Helper lemmas about the retryability predicate. -/

lemma isRetryableError_transport (r : RetryOptions) (h : r.MaxRetries ≠ 0) (s : Int) :
    r.IsRetryableError true s = true := by
  simp [RetryOptions.IsRetryableError, h]

lemma isRetryableError_response (r : RetryOptions) (h : r.MaxRetries ≠ 0) (s : Int) :
    r.IsRetryableError false s = r.RetryableStatusCodes.contains s := by
  simp [RetryOptions.IsRetryableError, h]

/-- Claim C2: `IsRetryableError` returns false whenever `MaxRetries == 0`
regardless of the outcome; otherwise it returns true for every non-nil
(transport) error; otherwise, for a response outcome, it returns true iff
the status code is in `RetryableStatusCodes`, so an empty list makes every
response outcome non-retryable. -/
theorem isRetryableError_C2 (r : RetryOptions) (errNonNil : Bool) (statusCode : Int) :
    (r.MaxRetries = 0 → r.IsRetryableError errNonNil statusCode = false) ∧
    (r.MaxRetries ≠ 0 → errNonNil = true → r.IsRetryableError errNonNil statusCode = true) ∧
    (r.MaxRetries ≠ 0 →
      (r.IsRetryableError false statusCode = true ↔ statusCode ∈ r.RetryableStatusCodes)) ∧
    (r.RetryableStatusCodes = [] → r.IsRetryableError false statusCode = false) := by
  refine ⟨fun h => ?_, fun h he => ?_, fun h => ?_, fun h => ?_⟩
  · simp [RetryOptions.IsRetryableError, h]
  · simp [RetryOptions.IsRetryableError, h, he]
  · simp [RetryOptions.IsRetryableError, h]
  · simp [RetryOptions.IsRetryableError, h]

/-- Witness for C2 at a concrete policy with `MaxRetries = 0`: even the
retryable-listed status 503 is reported non-retryable. -/
theorem isRetryableError_C2_witness :
    RetryOptions.IsRetryableError
      { MaxRetries := 0, RetryDelay := 1, MaxRetryDelay := 1,
        BackoffMultiplier := 1, RetryableStatusCodes := [503] } false 503 = false :=
  (isRetryableError_C2
    { MaxRetries := 0, RetryDelay := 1, MaxRetryDelay := 1,
      BackoffMultiplier := 1, RetryableStatusCodes := [503] } false 503).1 rfl

/-- Claim C3: `CalculateRetryDelay attempt` equals
`min (RetryDelay * (attempt + 1) * BackoffMultiplier) MaxRetryDelay`
(linear-times-multiplier growth, capped), and the returned delay never
exceeds `MaxRetryDelay`. -/
theorem calculateRetryDelay_C3 (r : RetryOptions) (attempt : Int) :
    r.CalculateRetryDelay attempt =
      min (r.RetryDelay * ((attempt : ℚ) + 1) * r.BackoffMultiplier) r.MaxRetryDelay ∧
    r.CalculateRetryDelay attempt ≤ r.MaxRetryDelay := by
  have key : r.CalculateRetryDelay attempt =
      if r.RetryDelay * ((attempt : ℚ) + 1) * r.BackoffMultiplier > r.MaxRetryDelay
      then r.MaxRetryDelay
      else r.RetryDelay * ((attempt : ℚ) + 1) * r.BackoffMultiplier := rfl
  rw [key]
  constructor
  · split
    · next hgt => exact (min_eq_right (le_of_lt hgt)).symm
    · next hle => exact (min_eq_left (not_lt.mp hle)).symm
  · split
    · next hgt => exact le_refl _
    · next hle => exact not_lt.mp hle

/-- Loop invariant for an always-transport-failing requester with a live
context: as long as the remaining fuel is positive and consistent with the
loop bound (`attempt + fuel = MaxRetries + 1`), the loop consumes all fuel,
performing one invocation per iteration, and ends in an error result. -/
lemma retryLoop_always_err (opts : RetryOptions) (req : Nat → Outcome) (cancel : Nat → Bool)
    (hreq : ∀ n, req n = .transportError) (hcancel : ∀ n, cancel n = false) :
    ∀ (fuel attempt calls : Nat) (waits : List (Nat × ℚ)) (lastErr : Option LastErr),
      1 ≤ fuel →
      (attempt : Int) + (fuel : Int) = opts.MaxRetries + 1 →
      (retryLoop opts req cancel fuel attempt calls waits lastErr).result.isError = true ∧
      (retryLoop opts req cancel fuel attempt calls waits lastErr).calls = calls + fuel := by
  intro fuel
  induction fuel with
  | zero => intro attempt calls waits lastErr h1 _; exact absurd h1 (by omega)
  | succ f ih =>
    intro attempt calls waits lastErr _ hsum
    by_cases hM0 : opts.MaxRetries = 0
    · have ha : attempt = 0 := by omega
      have hf : f = 0 := by omega
      subst ha; subst hf
      simp [retryLoop, hreq, hcancel, RetryOptions.IsRetryableError, hM0, RunResult.isError]
    · by_cases hlast : opts.MaxRetries ≤ (attempt : Int)
      · have hf : f = 0 := by omega
        subst hf
        simp [retryLoop, hreq, hcancel, isRetryableError_transport opts hM0, hlast,
          RunResult.isError]
      · have hf1 : 1 ≤ f := by omega
        have hsum' : ((attempt + 1 : Nat) : Int) + f = opts.MaxRetries + 1 := by
          push_cast at hsum ⊢; omega
        simp only [retryLoop, hreq, hcancel, isRetryableError_transport opts hM0, hlast,
          Bool.false_eq_true, and_false, if_false, not_true, ite_false, if_neg,
          not_false_iff, if_true]
        exact ⟨(ih _ _ _ _ hf1 hsum').1, by rw [(ih _ _ _ _ hf1 hsum').2]; omega⟩

/-- Claim C1: with an always-transport-failing requester and a live context,
`DoRequestWithRetry` invokes the requester exactly `MaxRetries + 1` times and
returns an error when `MaxRetries ≥ 0`, and invokes it exactly 0 times and
returns an error when `MaxRetries < 0`. -/
theorem run_C1 (opts : RetryOptions) (req : Nat → Outcome) (cancel : Nat → Bool)
    (hreq : ∀ n, req n = .transportError) (hcancel : ∀ n, cancel n = false) :
    (0 ≤ opts.MaxRetries →
      ((DoRequestWithRetry (some opts) req cancel).calls : Int) = opts.MaxRetries + 1 ∧
      (DoRequestWithRetry (some opts) req cancel).result.isError = true) ∧
    (opts.MaxRetries < 0 →
      (DoRequestWithRetry (some opts) req cancel).calls = 0 ∧
      (DoRequestWithRetry (some opts) req cancel).result.isError = true) := by
  constructor
  · intro h0
    obtain ⟨h1, h2⟩ := retryLoop_always_err opts req cancel hreq hcancel
      ((opts.MaxRetries + 1).toNat) 0 0 [] none (by omega) (by push_cast; omega)
    constructor
    · have h3 : (DoRequestWithRetry (some opts) req cancel).calls =
          0 + (opts.MaxRetries + 1).toNat := by
        simpa [DoRequestWithRetry] using h2
      rw [h3]; push_cast; omega
    · simpa [DoRequestWithRetry] using h1
  · intro hneg
    have h0 : (opts.MaxRetries + 1).toNat = 0 := by omega
    constructor
    · simp [DoRequestWithRetry, h0, retryLoop]
    · simp [DoRequestWithRetry, h0, retryLoop, RunResult.isError]

/-- Witness for C1: with maxRetries = 2 and an always-failing requester the
run performs exactly 3 invocations and ends in an error. -/
theorem run_C1_witness :
    ((DoRequestWithRetry (some optsErr2) reqAlwaysErr noCancel).calls : Int) =
      optsErr2.MaxRetries + 1 ∧
    (DoRequestWithRetry (some optsErr2) reqAlwaysErr noCancel).result.isError = true :=
  (run_C1 optsErr2 reqAlwaysErr noCancel (fun _ => rfl) (fun _ => rfl)).1 (by decide)

/-- Loop invariant: whenever the loop returns a response as its final result
(`ok s`), either the status was non-retryable, or there were no attempts left
(`MaxRetries < calls`); and the returned response is the outcome of the last
invocation performed. -/
lemma retryLoop_ok_inv (opts : RetryOptions) (req : Nat → Outcome) (cancel : Nat → Bool) :
    ∀ (fuel attempt calls : Nat) (waits : List (Nat × ℚ)) (lastErr : Option LastErr) (s : Int),
      attempt = calls →
      (retryLoop opts req cancel fuel attempt calls waits lastErr).result = .ok s →
      (opts.IsRetryableError false s = false ∨
        opts.MaxRetries <
          ((retryLoop opts req cancel fuel attempt calls waits lastErr).calls : Int)) ∧
      req ((retryLoop opts req cancel fuel attempt calls waits lastErr).calls - 1) =
        .response s := by
  intro fuel
  induction fuel with
  | zero =>
    intro attempt calls waits lastErr s _ hok
    cases lastErr <;> simp [retryLoop] at hok
  | succ f ih =>
    intro attempt calls waits lastErr s hac hok
    by_cases hcan : 0 < attempt ∧ cancel attempt
    · simp [retryLoop, hcan] at hok
    · cases hr : req calls with
      | transportError =>
        by_cases hb : opts.IsRetryableError true 0 = true
        · by_cases hlast : opts.MaxRetries ≤ (attempt : Int)
          · simp [retryLoop, hcan, hr, hb, hlast] at hok
          · simp only [retryLoop, hcan, hr, hb, hlast] at hok ⊢
            simp at hok ⊢
            exact ih _ _ _ _ _ (by omega) hok
        · simp [retryLoop, hcan, hr, hb] at hok
      | response s2 =>
        by_cases hrb : opts.IsRetryableError false s2 = true ∧ (attempt : Int) < opts.MaxRetries
        · simp only [retryLoop, hcan, hr, hrb] at hok ⊢
          simp at hok ⊢
          exact ih _ _ _ _ _ (by omega) hok
        · simp [retryLoop, hcan, hr, hrb] at hok ⊢
          rcases not_and_or.mp hrb with hA | hB
          · simp at hA
            exact ⟨Or.inl (hok ▸ hA), hok⟩
          · exact ⟨Or.inr (by omega), hok⟩

/-- Claim C4: a response outcome is returned as the final result with nil
error only when its status is non-retryable or no retries remained; in
particular an always-503 requester with maxRetries 2 and retryable {503}
yields 3 invocations and the final 503 as success, and a first-call 400 with
maxRetries 3 (400 not retryable) yields 1 invocation and the 400 as
success. -/
theorem run_C4 :
    (∀ (opts : RetryOptions) (req : Nat → Outcome) (cancel : Nat → Bool) (s : Int),
        (DoRequestWithRetry (some opts) req cancel).result = .ok s →
        (opts.IsRetryableError false s = false ∨
          opts.MaxRetries < ((DoRequestWithRetry (some opts) req cancel).calls : Int)) ∧
        req ((DoRequestWithRetry (some opts) req cancel).calls - 1) = .response s) ∧
    (DoRequestWithRetry (some opts503) reqAlways503 noCancel).calls = 3 ∧
    (DoRequestWithRetry (some opts503) reqAlways503 noCancel).result = .ok 503 ∧
    (DoRequestWithRetry (some opts400) reqAlways400 noCancel).calls = 1 ∧
    (DoRequestWithRetry (some opts400) reqAlways400 noCancel).result = .ok 400 := by
  refine ⟨?_, by decide, by decide, by decide, by decide⟩
  intro opts req cancel s h
  have key := retryLoop_ok_inv opts req cancel ((opts.MaxRetries + 1).toNat) 0 0 [] none s rfl
    (by simpa [DoRequestWithRetry] using h)
  simpa [DoRequestWithRetry] using key

/-- Witness for C4's general part at the always-503 scenario: the final 503
was returned because the attempt budget was exhausted, and it is the outcome
of the last invocation. -/
theorem run_C4_witness :
    (opts503.IsRetryableError false 503 = false ∨
      opts503.MaxRetries < ((DoRequestWithRetry (some opts503) reqAlways503 noCancel).calls : Int)) ∧
    reqAlways503 ((DoRequestWithRetry (some opts503) reqAlways503 noCancel).calls - 1) =
      .response 503 :=
  run_C4.1 opts503 reqAlways503 noCancel 503 (by decide)

/-- Loop invariant: if the loop ends with the context's cancellation error,
strictly fewer invocations than the remaining fuel were performed. -/
lemma retryLoop_ctxErr_calls (opts : RetryOptions) (req : Nat → Outcome) (cancel : Nat → Bool) :
    ∀ (fuel attempt calls : Nat) (waits : List (Nat × ℚ)) (lastErr : Option LastErr),
      (retryLoop opts req cancel fuel attempt calls waits lastErr).result = .ctxErr →
      (retryLoop opts req cancel fuel attempt calls waits lastErr).calls < calls + fuel := by
  intro fuel
  induction fuel with
  | zero =>
    intro attempt calls waits lastErr hok
    cases lastErr <;> simp [retryLoop] at hok
  | succ f ih =>
    intro attempt calls waits lastErr hok
    by_cases hcan : 0 < attempt ∧ cancel attempt
    · have hred : (retryLoop opts req cancel (f + 1) attempt calls waits lastErr).calls =
          calls := by
        simp [retryLoop, hcan]
      rw [hred]; omega
    · cases hr : req calls with
      | transportError =>
        by_cases hb : opts.IsRetryableError true 0 = true
        · by_cases hlast : opts.MaxRetries ≤ (attempt : Int)
          · simp [retryLoop, hcan, hr, hb, hlast] at hok
          · simp only [retryLoop, hcan, hr, hb, hlast] at hok ⊢
            simp at hok ⊢
            have key := ih _ _ _ _ hok
            omega
        · simp [retryLoop, hcan, hr, hb] at hok
      | response s2 =>
        by_cases hrb : opts.IsRetryableError false s2 = true ∧ (attempt : Int) < opts.MaxRetries
        · simp only [retryLoop, hcan, hr, hrb] at hok ⊢
          simp at hok ⊢
          have key := ih _ _ _ _ hok
          omega
        · simp [retryLoop, hcan, hr, hrb] at hok

/-- Claim C5: when the caller's cancellation fires during a backoff wait, the
run returns the cancellation error as-is (the dedicated `ctxErr` result, not
a wrapped retry failure) and the requester was invoked strictly fewer than
`MaxRetries + 1` times; concretely, cancelling at iteration 2 of an
always-503 run with maxRetries 3 yields `ctxErr` after exactly 2
invocations. -/
theorem run_C5 :
    (∀ (opts : RetryOptions) (req : Nat → Outcome) (cancel : Nat → Bool),
        (DoRequestWithRetry (some opts) req cancel).result = .ctxErr →
        ((DoRequestWithRetry (some opts) req cancel).calls : Int) < opts.MaxRetries + 1) ∧
    (DoRequestWithRetry (some opts3Retry503) reqAlways503 cancelAtTwo).result = .ctxErr ∧
    (DoRequestWithRetry (some opts3Retry503) reqAlways503 cancelAtTwo).calls = 2 := by
  refine ⟨?_, by decide, by decide⟩
  intro opts req cancel h
  have key := retryLoop_ctxErr_calls opts req cancel ((opts.MaxRetries + 1).toNat) 0 0 [] none
    (by simpa [DoRequestWithRetry] using h)
  have key2 : (DoRequestWithRetry (some opts) req cancel).calls <
      0 + (opts.MaxRetries + 1).toNat := by
    simpa [DoRequestWithRetry] using key
  omega

/-- Witness for C5's general part at the cancellation scenario: the cancelled
run performed strictly fewer than maxRetries + 1 = 4 invocations. -/
theorem run_C5_witness :
    ((DoRequestWithRetry (some opts3Retry503) reqAlways503 cancelAtTwo).calls : Int) <
      opts3Retry503.MaxRetries + 1 :=
  run_C5.1 opts3Retry503 reqAlways503 cancelAtTwo (by decide)

/-- Claim C7: a requester answering 503 on its first two invocations and 200
on the third, with retryable = {503} and maxRetries = 3, is invoked exactly
3 times and the run returns the 200 response with no error. -/
theorem run_C7 :
    (DoRequestWithRetry (some opts3Retry503) req503Twice200 noCancel).calls = 3 ∧
    (DoRequestWithRetry (some opts3Retry503) req503Twice200 noCancel).result = .ok 200 := by
  exact ⟨by decide, by decide⟩

/-- Claim C8: a nil policy is replaced by the default policy, and the default
policy has maxRetries 3, base delay 100ms, max delay 2s, multiplier 2.0, and
retryable status codes 408, 429, 500, 502, 503, 504 in that order
(durations in nanoseconds). -/
theorem run_C8 :
    (∀ (req : Nat → Outcome) (cancel : Nat → Bool),
        DoRequestWithRetry none req cancel =
          DoRequestWithRetry (some DefaultRetryOptions) req cancel) ∧
    DefaultRetryOptions.MaxRetries = 3 ∧
    DefaultRetryOptions.RetryDelay = 100000000 ∧
    DefaultRetryOptions.MaxRetryDelay = 2000000000 ∧
    DefaultRetryOptions.BackoffMultiplier = 2 ∧
    DefaultRetryOptions.RetryableStatusCodes = [408, 429, 500, 502, 503, 504] := by
  refine ⟨fun req cancel => rfl, rfl, ?_, ?_, rfl, rfl⟩
  · norm_num [DefaultRetryOptions]
  · norm_num [DefaultRetryOptions]

/-- Loop invariant for the recorded backoff waits: if every wait already
recorded is a wait before some loop iteration `k` with `1 ≤ k ≤ MaxRetries`
and delay `CalculateRetryDelay (k - 1)`, then so is every wait recorded by
the rest of the run (the fuel/attempt equation ties `attempt` to the loop
bound `maxAttempts = MaxRetries + 1`). -/
lemma retryLoop_waits_inv (opts : RetryOptions) (req : Nat → Outcome) (cancel : Nat → Bool) :
    ∀ (fuel attempt calls : Nat) (waits : List (Nat × ℚ)) (lastErr : Option LastErr),
      (attempt : Int) + (fuel : Int) = (((opts.MaxRetries + 1).toNat : Nat) : Int) →
      (∀ (k : Nat) (d : ℚ), (k, d) ∈ waits →
        1 ≤ k ∧ (k : Int) ≤ opts.MaxRetries ∧ d = opts.CalculateRetryDelay ((k : Int) - 1)) →
      ∀ (k : Nat) (d : ℚ),
        (k, d) ∈ (retryLoop opts req cancel fuel attempt calls waits lastErr).waits →
        1 ≤ k ∧ (k : Int) ≤ opts.MaxRetries ∧ d = opts.CalculateRetryDelay ((k : Int) - 1) := by
  intro fuel
  induction fuel with
  | zero =>
    intro attempt calls waits lastErr _ hw k d hmem
    cases lastErr <;> simp only [retryLoop] at hmem <;> exact hw k d hmem
  | succ f ih =>
    intro attempt calls waits lastErr hsum hw k d hmem
    by_cases ha : 0 < attempt
    · -- a wait is initiated this iteration and recorded
      have hw2 : ∀ (k2 : Nat) (d2 : ℚ),
          (k2, d2) ∈ waits ++ [(attempt, opts.CalculateRetryDelay ((attempt : Int) - 1))] →
          1 ≤ k2 ∧ (k2 : Int) ≤ opts.MaxRetries ∧
            d2 = opts.CalculateRetryDelay ((k2 : Int) - 1) := by
        intro k2 d2 h2
        rcases List.mem_append.mp h2 with h3 | h3
        · exact hw k2 d2 h3
        · have h4 : k2 = attempt ∧ d2 = opts.CalculateRetryDelay ((attempt : Int) - 1) := by
            simpa using h3
          obtain ⟨hk, hd⟩ := h4
          subst hk
          subst hd
          exact ⟨ha, by omega, rfl⟩
      by_cases hc : cancel attempt = true
      · have hred : (retryLoop opts req cancel (f + 1) attempt calls waits lastErr).waits =
            waits ++ [(attempt, opts.CalculateRetryDelay ((attempt : Int) - 1))] := by
          simp [retryLoop, ha, hc]
        rw [hred] at hmem
        exact hw2 k d hmem
      · cases hr : req calls with
        | transportError =>
          by_cases hb : opts.IsRetryableError true 0 = true
          · by_cases hlast : opts.MaxRetries ≤ (attempt : Int)
            · have hred : (retryLoop opts req cancel (f + 1) attempt calls waits lastErr).waits =
                  waits ++ [(attempt, opts.CalculateRetryDelay ((attempt : Int) - 1))] := by
                simp [retryLoop, ha, hc, hr, hb, hlast]
              rw [hred] at hmem
              exact hw2 k d hmem
            · have hred : (retryLoop opts req cancel (f + 1) attempt calls waits lastErr).waits =
                  (retryLoop opts req cancel f (attempt + 1) (calls + 1)
                    (waits ++ [(attempt, opts.CalculateRetryDelay ((attempt : Int) - 1))])
                    (some .transport)).waits := by
                simp [retryLoop, ha, hc, hr, hb, hlast]
              rw [hred] at hmem
              exact ih _ _ _ _ (by omega) hw2 k d hmem
          · have hred : (retryLoop opts req cancel (f + 1) attempt calls waits lastErr).waits =
                waits ++ [(attempt, opts.CalculateRetryDelay ((attempt : Int) - 1))] := by
              simp [retryLoop, ha, hc, hr, hb]
            rw [hred] at hmem
            exact hw2 k d hmem
        | response s2 =>
          by_cases hrb : opts.IsRetryableError false s2 = true ∧
              (attempt : Int) < opts.MaxRetries
          · have hred : (retryLoop opts req cancel (f + 1) attempt calls waits lastErr).waits =
                (retryLoop opts req cancel f (attempt + 1) (calls + 1)
                  (waits ++ [(attempt, opts.CalculateRetryDelay ((attempt : Int) - 1))])
                  (some (.serverStatus s2))).waits := by
              simp [retryLoop, ha, hc, hr, hrb]
            rw [hred] at hmem
            exact ih _ _ _ _ (by omega) hw2 k d hmem
          · have hred : (retryLoop opts req cancel (f + 1) attempt calls waits lastErr).waits =
                waits ++ [(attempt, opts.CalculateRetryDelay ((attempt : Int) - 1))] := by
              simp [retryLoop, ha, hc, hr, hrb]
            rw [hred] at hmem
            exact hw2 k d hmem
    · -- first iteration: no wait initiated
      cases hr : req calls with
      | transportError =>
        by_cases hb : opts.IsRetryableError true 0 = true
        · by_cases hlast : opts.MaxRetries ≤ (attempt : Int)
          · have hred : (retryLoop opts req cancel (f + 1) attempt calls waits lastErr).waits =
                waits := by
              simp [retryLoop, ha, hr, hb, hlast]
            rw [hred] at hmem
            exact hw k d hmem
          · have hred : (retryLoop opts req cancel (f + 1) attempt calls waits lastErr).waits =
                (retryLoop opts req cancel f (attempt + 1) (calls + 1) waits
                  (some .transport)).waits := by
              simp [retryLoop, ha, hr, hb, hlast]
            rw [hred] at hmem
            exact ih _ _ _ _ (by omega) hw k d hmem
        · have hred : (retryLoop opts req cancel (f + 1) attempt calls waits lastErr).waits =
              waits := by
            simp [retryLoop, ha, hr, hb]
          rw [hred] at hmem
          exact hw k d hmem
      | response s2 =>
        by_cases hrb : opts.IsRetryableError false s2 = true ∧
            (attempt : Int) < opts.MaxRetries
        · have hred : (retryLoop opts req cancel (f + 1) attempt calls waits lastErr).waits =
              (retryLoop opts req cancel f (attempt + 1) (calls + 1) waits
                (some (.serverStatus s2))).waits := by
            simp [retryLoop, ha, hr, hrb]
          rw [hred] at hmem
          exact ih _ _ _ _ (by omega) hw k d hmem
        · have hred : (retryLoop opts req cancel (f + 1) attempt calls waits lastErr).waits =
              waits := by
            simp [retryLoop, ha, hr, hrb]
          rw [hred] at hmem
          exact hw k d hmem

/-- Claim C6: every backoff wait of a run happens before a loop iteration
`k` with `1 ≤ k ≤ MaxRetries` — never before the first attempt — and the
wait before iteration `k` uses the delay `CalculateRetryDelay (k - 1)`, so
the wait before the first retry uses attempt index 0. -/
theorem run_C6 (opts : RetryOptions) (req : Nat → Outcome) (cancel : Nat → Bool)
    (k : Nat) (d : ℚ)
    (hmem : (k, d) ∈ (DoRequestWithRetry (some opts) req cancel).waits) :
    1 ≤ k ∧ (k : Int) ≤ opts.MaxRetries ∧ d = opts.CalculateRetryDelay ((k : Int) - 1) := by
  refine retryLoop_waits_inv opts req cancel ((opts.MaxRetries + 1).toNat) 0 0 [] none
    (by omega) (by intro k2 d2 h2; simp at h2) k d ?_
  simpa [DoRequestWithRetry] using hmem

/-- Witness for C6: in the always-503 run with maxRetries 2, the wait
recorded before iteration 1 has the delay computed for attempt index 0. -/
theorem run_C6_witness :
    1 ≤ (1 : Nat) ∧ ((1 : Nat) : Int) ≤ opts503.MaxRetries ∧
      (2 : ℚ) = opts503.CalculateRetryDelay (((1 : Nat) : Int) - 1) := by
  refine run_C6 opts503 reqAlways503 noCancel 1 2 ?_
  have h : (DoRequestWithRetry (some opts503) reqAlways503 noCancel).waits =
      [(1, opts503.CalculateRetryDelay 0), (2, opts503.CalculateRetryDelay 1)] := rfl
  have h2 : opts503.CalculateRetryDelay 0 = 2 := by
    norm_num [RetryOptions.CalculateRetryDelay, opts503]
  rw [h, h2]
  simp

/-- Loop invariant: the loop body always exits through an explicit return,
so the post-loop wrap of `lastErr` is unreachable, and the post-loop
"no attempts made" result can only arise when the loop never ran
(initial fuel 0, `lastErr` still nil). -/
lemma retryLoop_no_post (opts : RetryOptions) (req : Nat → Outcome) (cancel : Nat → Bool) :
    ∀ (fuel attempt calls : Nat) (waits : List (Nat × ℚ)) (lastErr : Option LastErr),
      (fuel = 0 → lastErr = none) →
      (fuel ≠ 0 → (attempt : Int) + (fuel : Int) = opts.MaxRetries + 1) →
      (retryLoop opts req cancel fuel attempt calls waits lastErr).result ≠
        .failedAfterRetriesPost ∧
      (fuel ≠ 0 →
        (retryLoop opts req cancel fuel attempt calls waits lastErr).result ≠ .noAttempts) := by
  intro fuel
  induction fuel with
  | zero =>
    intro attempt calls waits lastErr h0 _
    rw [h0 rfl]
    exact ⟨by simp [retryLoop], fun h => absurd rfl h⟩
  | succ f ih =>
    intro attempt calls waits lastErr _ hsum
    by_cases hcan : 0 < attempt ∧ cancel attempt
    · have hred : (retryLoop opts req cancel (f + 1) attempt calls waits lastErr).result =
          .ctxErr := by
        simp [retryLoop, hcan]
      rw [hred]
      exact ⟨by simp, fun _ => by simp⟩
    · cases hr : req calls with
      | transportError =>
        by_cases hb : opts.IsRetryableError true 0 = true
        · by_cases hlast : opts.MaxRetries ≤ (attempt : Int)
          · have hred : (retryLoop opts req cancel (f + 1) attempt calls waits lastErr).result =
                .failedAfterRetries := by
              simp [retryLoop, hcan, hr, hb, hlast]
            rw [hred]
            exact ⟨by simp, fun _ => by simp⟩
          · have hf : f ≠ 0 := by omega
            have hred : (retryLoop opts req cancel (f + 1) attempt calls waits lastErr).result =
                (retryLoop opts req cancel f (attempt + 1) (calls + 1)
                  (if 0 < attempt then
                      waits ++ [(attempt, opts.CalculateRetryDelay ((attempt : Int) - 1))]
                    else waits)
                  (some .transport)).result := by
              by_cases ha : 0 < attempt
              · have hc : ¬ cancel attempt = true := fun hcc => hcan ⟨ha, hcc⟩
                simp [retryLoop, hc, hr, hb, hlast, ha]
              · simp [retryLoop, hr, hb, hlast, ha]
            rw [hred]
            obtain ⟨p1, p2⟩ := ih (attempt + 1) (calls + 1)
              (if 0 < attempt then
                  waits ++ [(attempt, opts.CalculateRetryDelay ((attempt : Int) - 1))]
                else waits)
              (some .transport) (fun h => absurd h hf) (fun _ => by omega)
            exact ⟨p1, fun _ => p2 hf⟩
        · have hred : (retryLoop opts req cancel (f + 1) attempt calls waits lastErr).result =
              .failedToExecute := by
            simp [retryLoop, hcan, hr, hb]
          rw [hred]
          exact ⟨by simp, fun _ => by simp⟩
      | response s2 =>
        by_cases hrb : opts.IsRetryableError false s2 = true ∧
            (attempt : Int) < opts.MaxRetries
        · have hf : f ≠ 0 := by omega
          have hred : (retryLoop opts req cancel (f + 1) attempt calls waits lastErr).result =
              (retryLoop opts req cancel f (attempt + 1) (calls + 1)
                (if 0 < attempt then
                    waits ++ [(attempt, opts.CalculateRetryDelay ((attempt : Int) - 1))]
                  else waits)
                (some (.serverStatus s2))).result := by
            by_cases ha : 0 < attempt
            · have hc : ¬ cancel attempt = true := fun hcc => hcan ⟨ha, hcc⟩
              simp [retryLoop, hc, hr, hrb, ha]
            · simp [retryLoop, hr, hrb, ha]
          rw [hred]
          obtain ⟨p1, p2⟩ := ih (attempt + 1) (calls + 1)
            (if 0 < attempt then
                waits ++ [(attempt, opts.CalculateRetryDelay ((attempt : Int) - 1))]
              else waits)
            (some (.serverStatus s2)) (fun h => absurd h hf) (fun _ => by omega)
          exact ⟨p1, fun _ => p2 hf⟩
        · have hred : (retryLoop opts req cancel (f + 1) attempt calls waits lastErr).result =
              .ok s2 := by
            simp [retryLoop, hcan, hr, hrb]
          rw [hred]
          exact ⟨by simp, fun _ => by simp⟩

/-- Claim C9: the post-loop branch wrapping `lastErr` as "failed after
retries" is unreachable for every policy, requester and context; the loop is
exited without an explicit return only when `MaxRetries < 0`, in which case
no attempt was made and the result is the "no attempts made" error. -/
theorem run_C9 (opts : RetryOptions) (req : Nat → Outcome) (cancel : Nat → Bool) :
    (DoRequestWithRetry (some opts) req cancel).result ≠ .failedAfterRetriesPost ∧
    (0 ≤ opts.MaxRetries → (DoRequestWithRetry (some opts) req cancel).result ≠ .noAttempts) ∧
    (opts.MaxRetries < 0 →
      (DoRequestWithRetry (some opts) req cancel).calls = 0 ∧
      (DoRequestWithRetry (some opts) req cancel).result = .noAttempts) := by
  obtain ⟨hp, hn⟩ := retryLoop_no_post opts req cancel ((opts.MaxRetries + 1).toNat) 0 0 [] none
    (fun _ => rfl) (fun h => by omega)
  refine ⟨by simpa [DoRequestWithRetry] using hp, fun h0 => ?_, fun hneg => ?_⟩
  · have key := hn (by omega)
    simpa [DoRequestWithRetry] using key
  · have h0 : (opts.MaxRetries + 1).toNat = 0 := by omega
    constructor
    · simp [DoRequestWithRetry, h0, retryLoop]
    · simp [DoRequestWithRetry, h0, retryLoop]

/-- Witness for C9 at a policy with `MaxRetries = -1`: zero invocations and
the "no attempts made" error. -/
theorem run_C9_witness :
    (DoRequestWithRetry (some optsNeg) reqAlways503 noCancel).calls = 0 ∧
    (DoRequestWithRetry (some optsNeg) reqAlways503 noCancel).result = .noAttempts :=
  (run_C9 optsNeg reqAlways503 noCancel).2.2 (by decide)

/-- Claim C10: a negative `MaxRetries` does not disable the retryability
predicate — only `MaxRetries == 0` does: with `MaxRetries < 0` every non-nil
error is still retryable and every listed status code is still retryable,
while attempts are prevented solely by the executor's attempt budget
(zero invocations, "no attempts made"). -/
theorem run_C10 (r : RetryOptions) (h : r.MaxRetries < 0) :
    (∀ code : Int, r.IsRetryableError true code = true) ∧
    (∀ code : Int, code ∈ r.RetryableStatusCodes → r.IsRetryableError false code = true) ∧
    (∀ (req : Nat → Outcome) (cancel : Nat → Bool),
      (DoRequestWithRetry (some r) req cancel).calls = 0 ∧
      (DoRequestWithRetry (some r) req cancel).result = .noAttempts) := by
  have hne : r.MaxRetries ≠ 0 := by omega
  refine ⟨fun code => isRetryableError_transport r hne code, fun code hc => ?_,
    fun req cancel => ?_⟩
  · simp [RetryOptions.IsRetryableError, hne, hc]
  · have h0 : (r.MaxRetries + 1).toNat = 0 := by omega
    constructor
    · simp [DoRequestWithRetry, h0, retryLoop]
    · simp [DoRequestWithRetry, h0, retryLoop]

/-- Witness for C10 at `MaxRetries = -1`, retryable set {503}: transport
errors and status 503 both count as retryable, yet no invocation happens. -/
theorem run_C10_witness :
    optsNeg.IsRetryableError true 0 = true ∧
    optsNeg.IsRetryableError false 503 = true ∧
    (DoRequestWithRetry (some optsNeg) reqAlwaysErr noCancel).calls = 0 := by
  have key := run_C10 optsNeg (by decide)
  exact ⟨key.1 0, key.2.1 503 (by decide), (key.2.2 reqAlwaysErr noCancel).1⟩

end HttpKit
